import Mathlib

/-!
# Order/invoice lifecycle of the fantasia backend, shallowly embedded

This file embeds the order/invoice lifecycle and sequential-numbering logic
of the Django backend (apps `orders`, `billing`, `commercial`) as pure Lean
functions over an explicit database state, and proves the specified
properties about them.

Conventions of the embedding:
* `Decimal` monetary amounts become `ℚ` (all arithmetic performed by the
  source — sums, products, division by 100 — is exact at these scales).
* Dates become `Int` day counts (`due_date = issue_date + 30 days` is the
  only date arithmetic performed).
* Django rows become structures carrying the fields the modelled logic
  reads or writes; purely informational fields (timestamps, notes,
  attribution foreign keys, payment method, client) are omitted since no
  modelled computation reads them.
* A table is a `List` of rows; `order_by('-id').first()` becomes `lastById`
  (row of greatest primary key) and autoincrement key assignment becomes
  `freshId` (one more than the greatest existing key).
* A Python `int(...)` parse that can raise, and therefore any operation
  that performs one, is `Option`-valued: `none` is the uncaught exception.
-/

namespace Fantasia

/-- Order status codes, `orders/models.py` `Order.Status`. -/
inductive OrderStatus where
  | PE  -- Pending
  | CO  -- Confirmed
  | PR  -- In Production
  | RD  -- Ready for Delivery
  | IT  -- In Transit
  | DE  -- Delivered
  | CA  -- Cancelled
deriving DecidableEq, Repr

/-- Invoice status codes, `billing/models.py` `Invoice.Status`. -/
inductive InvoiceStatus where
  | DR  -- Draft
  | PE  -- Pending
  | PA  -- Paid
  | PP  -- Partially Paid
  | OV  -- Overdue
  | CA  -- Cancelled
deriving DecidableEq, Repr

/-- `orders/models.py` `Order` (fields read/written by the modelled logic). -/
structure Order where
  id : Nat
  order_number : String
  status : OrderStatus
  total_amount : ℚ
  shipping_address : String
deriving DecidableEq, Repr

/-- `orders/models.py` `OrderItem`. -/
structure OrderItem where
  id : Nat
  order : Nat
  product : Nat
  quantity : Nat
  unit_price : ℚ
  total_price : ℚ
deriving DecidableEq, Repr

/-- `orders/models.py` `DeliveryStatus` (an appended status event). -/
structure DeliveryStatus where
  id : Nat
  order : Nat
  status : OrderStatus
deriving DecidableEq, Repr

/-- `billing/models.py` `Invoice`. -/
structure Invoice where
  id : Nat
  invoice_number : String
  order : Nat
  status : InvoiceStatus
  issue_date : Int
  due_date : Int
  subtotal : ℚ
  tax_rate : ℚ
  tax_amount : ℚ
  total_amount : ℚ
deriving DecidableEq, Repr

/-- `billing/models.py` `Payment`. -/
structure Payment where
  id : Nat
  invoice : Nat
  amount : ℚ
deriving DecidableEq, Repr

/-- `billing/models.py` `CreditNote`. -/
structure CreditNote where
  id : Nat
  credit_note_number : String
  invoice : Nat
  amount : ℚ
  reason : String
deriving DecidableEq, Repr

/-- `products/models.py` `Product` (the fields order creation reads). -/
structure Product where
  id : Nat
  name : String
  price : ℚ
  stock_quantity : Nat
deriving DecidableEq, Repr

/-- `commercial/models.py` `Quote` (the fields number generation reads). -/
structure Quote where
  id : Nat
  quote_number : String
deriving DecidableEq, Repr

/-- The relational state the modelled operations act on. -/
structure DB where
  products : List Product
  orders : List Order
  orderItems : List OrderItem
  deliveryStatuses : List DeliveryStatus
  invoices : List Invoice
  payments : List Payment
  creditNotes : List CreditNote
  quotes : List Quote
deriving DecidableEq, Repr

/-! ## Primary keys and row lookup -/

/-- Greatest primary key present in a table (0 when empty). -/
def maxId (get : α → Nat) (l : List α) : Nat :=
  l.foldl (fun m x => max m (get x)) 0

/-- Autoincrement primary key for the next inserted row. -/
def freshId (get : α → Nat) (l : List α) : Nat :=
  maxId get l + 1

/-- `Model.objects.order_by('-id').first()`: the row of greatest primary
key, if any. -/
def lastById (get : α → Nat) (l : List α) : Option α :=
  l.foldl (fun acc x =>
    match acc with
    | none => some x
    | some y => if get y < get x then some x else some y) none

def findOrder (db : DB) (oid : Nat) : Option Order :=
  db.orders.find? (fun o => o.id = oid)

def findInvoice (db : DB) (iid : Nat) : Option Invoice :=
  db.invoices.find? (fun i => i.id = iid)

def findProduct (db : DB) (pid : Nat) : Option Product :=
  db.products.find? (fun p => p.id = pid)

/-- Write back an order row (matched by primary key). -/
def updateOrderRow (db : DB) (o : Order) : DB :=
  { db with orders := db.orders.map (fun x => if x.id = o.id then o else x) }

/-- Write back an invoice row (matched by primary key). -/
def updateInvoiceRow (db : DB) (i : Invoice) : DB :=
  { db with invoices := db.invoices.map (fun x => if x.id = i.id then i else x) }

/-- Write back a product row (matched by primary key). -/
def updateProductRow (db : DB) (p : Product) : DB :=
  { db with products := db.products.map (fun x => if x.id = p.id then p else x) }

/-- `order.delete()`: removes the order row and (CASCADE on
`OrderItem.order`) its order items. -/
def deleteOrder (db : DB) (oid : Nat) : DB :=
  { db with orders := db.orders.filter (fun o => o.id ≠ oid),
            orderItems := db.orderItems.filter (fun it => it.order ≠ oid) }

/-! ## Sequential identifier generation -/

/-- Python `str(n).zfill(w)`. -/
def zfill (w : Nat) (n : Nat) : String :=
  let s := toString n
  String.mk (List.replicate (w - s.length) '0') ++ s

/-- The shared sequential-number pattern of `OrderSerializer.create`,
`handle_order_status_change` and `CreditNoteSerializer.create`: take the
most recent record's number, drop the first `plen` characters, parse the
rest as an integer (`none` = the `int(...)` call raises), add one and
zero-pad to 6 digits after the prefix; `PFX000001` when no record exists. -/
def nextSeqNumber (pfx : String) (plen : Nat) (last : Option String) : Option String :=
  match last with
  | none => some (pfx ++ zfill 6 1)
  | some s => (String.toNat? (String.drop s plen)).map (fun n => pfx ++ zfill 6 (n + 1))

/-- `orders/serializers.py` `OrderSerializer.create`, number generation. -/
def nextOrderNumber (db : DB) : Option String :=
  nextSeqNumber "ORD" 3 ((lastById Order.id db.orders).map Order.order_number)

/-- `orders/signals.py` `handle_order_status_change`, number generation
(identical scheme in `billing/serializers.py` `InvoiceSerializer.create`). -/
def nextInvoiceNumber (db : DB) : Option String :=
  nextSeqNumber "INV" 3 ((lastById Invoice.id db.invoices).map Invoice.invoice_number)

/-- `billing/serializers.py` `CreditNoteSerializer.create`, number
generation (prefix `CN`, so the slice starts at index 2). -/
def nextCreditNoteNumber (db : DB) : Option String :=
  nextSeqNumber "CN" 2 ((lastById CreditNote.id db.creditNotes).map CreditNote.credit_note_number)

/-- `commercial/models.py` `Quote.save` number generation: based on the most
recent quote's primary key plus one (1 when none), formatted `f"Q-{n:05d}"`. -/
def nextQuoteNumber (lastQ : Option Quote) : String :=
  match lastQ with
  | none => "Q-" ++ zfill 5 1
  | some q => "Q-" ++ zfill 5 (q.id + 1)

/-! ## Invoice model logic -/

/-- Invoices belonging to an order: `Invoice.objects.filter(order=...)`. -/
def invoicesFor (db : DB) (oid : Nat) : List Invoice :=
  db.invoices.filter (fun i => i.order = oid)

/-- `billing/models.py` `Invoice.save`: recompute `tax_amount` and
`total_amount` when they are (Python-falsy) zero, before the row is
written. -/
def invoiceRecompute (i : Invoice) : Invoice :=
  let i1 := if i.tax_amount = 0
            then { i with tax_amount := i.subtotal * (i.tax_rate / 100) }
            else i
  if i1.total_amount = 0
  then { i1 with total_amount := i1.subtotal + i1.tax_amount }
  else i1

/-- `orders/signals.py` `handle_order_status_change`: `post_save` receiver
on `Order`. Skips creating saves; on a save of a Delivered order with no
existing invoice, computes the invoice fields and inserts the invoice
(insertion goes through `Invoice.save`, i.e. `invoiceRecompute`).
`none` models the uncaught exception when the previous invoice number fails
to parse. -/
def handle_order_status_change (db : DB) (inst : Order) (created : Bool)
    (issue_date : Int) : Option DB :=
  if created then some db
  else if inst.status = OrderStatus.DE then
    if db.invoices.filter (fun i => i.order = inst.id) = [] then
      match nextInvoiceNumber db with
      | none => none
      | some num =>
        let subtotal := inst.total_amount
        let tax_rate : ℚ := 20
        let tax_amount := subtotal * (tax_rate / 100)
        let total_amount := subtotal + tax_amount
        let inv : Invoice :=
          { id := freshId Invoice.id db.invoices
            invoice_number := num
            order := inst.id
            status := InvoiceStatus.PE
            issue_date := issue_date
            due_date := issue_date + 30
            subtotal := subtotal
            tax_rate := tax_rate
            tax_amount := tax_amount
            total_amount := total_amount }
        some { db with invoices := db.invoices ++ [invoiceRecompute inv] }
    else some db
  else some db

/-- A non-creating `order.save()`: write the row, then run the `post_save`
receiver `handle_order_status_change` with `created=False`. -/
def orderSaveUpdate (db : DB) (o : Order) (today : Int) : Option DB :=
  handle_order_status_change (updateOrderRow db o) o false today

/-! ## Order aggregate operations -/

/-- `orders/models.py` `OrderItem.save`: recompute the item's
`total_price = quantity * unit_price`, then write the row (update when the
primary key exists, insert otherwise). It does not touch the parent order. -/
def orderItemSave (db : DB) (item : OrderItem) : DB :=
  let item2 := { item with total_price := (item.quantity : ℚ) * item.unit_price }
  if db.orderItems.any (fun x => x.id = item.id) then
    { db with orderItems := db.orderItems.map (fun x => if x.id = item.id then item2 else x) }
  else
    { db with orderItems := db.orderItems ++ [item2] }

/-- One item of an order-creation request (`items` entries of the request
body; `product_id` may be absent). -/
structure OrderItemRequest where
  product_id : Option Nat
  quantity : Nat
deriving DecidableEq, Repr

/-- An order-creation request body: the writable serializer fields the
modelled logic reads (`status` is a writable field of `OrderSerializer`,
defaulting to Pending when absent). -/
structure OrderRequest where
  shipping_address : String
  status : Option OrderStatus
  items : List OrderItemRequest
deriving DecidableEq, Repr

/-- Outcome of `OrderViewSet.create`: an error response carrying the state
it left behind, a crash (uncaught exception), or success. -/
inductive CreateResult where
  | err (msg : String) (db : DB)
  | crashed
  | ok (db : DB) (oid : Nat)
deriving DecidableEq, Repr

/-- The per-item loop of `OrderViewSet.create` (lines 178–238): for each
item require a product id and an existing product with sufficient stock,
decrement the stock, accumulate `unit_price * quantity` into the running
total and insert the `OrderItem` (whose `save` recomputes `total_price`).
On any failure the order is deleted (compensating delete) and the error
response is returned; stock already decremented is not restored. -/
def processItems (oid : Nat) :
    DB → ℚ → List OrderItemRequest → (String × DB) ⊕ (DB × ℚ)
  | db, total, [] => Sum.inr (db, total)
  | db, total, item :: rest =>
    match item.product_id with
    | none => Sum.inl ("Product ID is required for each order item", deleteOrder db oid)
    | some pid =>
      match findProduct db pid with
      | none => Sum.inl ("Product does not exist", deleteOrder db oid)
      | some product =>
        if product.stock_quantity < item.quantity then
          Sum.inl ("Product does not have sufficient stock", deleteOrder db oid)
        else
          let db1 := updateProductRow db
            { product with stock_quantity := product.stock_quantity - item.quantity }
          let unit_price := product.price
          let item_total := unit_price * (item.quantity : ℚ)
          let oi : OrderItem :=
            { id := freshId OrderItem.id db1.orderItems
              order := oid
              product := pid
              quantity := item.quantity
              unit_price := unit_price
              total_price := item_total }
          processItems oid (orderItemSave db1 oi) (total + item_total) rest

/-- `orders/views.py` `OrderViewSet.create` together with
`OrderSerializer.create`: reject an empty item list and a missing shipping
address; insert the order with a generated number, the requested status
(default Pending) and `total_amount = 0` (the creating save's `post_save`
receiver returns immediately); process the items; finally write the
computed total back with a non-creating `order.save()` (which runs the
`post_save` receiver). -/
def order_create (db : DB) (req : OrderRequest) (today : Int) : CreateResult :=
  if req.items = [] then
    CreateResult.err "Order must contain at least one item" db
  else if req.shipping_address = "" then
    CreateResult.err "Shipping address is required" db
  else
    match nextOrderNumber db with
    | none => CreateResult.crashed
    | some num =>
      let oid := freshId Order.id db.orders
      let order : Order :=
        { id := oid
          order_number := num
          status := req.status.getD OrderStatus.PE
          total_amount := 0
          shipping_address := req.shipping_address }
      let db1 := { db with orders := db.orders ++ [order] }
      match handle_order_status_change db1 order true today with
      | none => CreateResult.crashed
      | some db1' =>
        match processItems oid db1' 0 req.items with
        | Sum.inl (msg, db2) => CreateResult.err msg db2
        | Sum.inr (db2, total) =>
          match orderSaveUpdate db2 { order with total_amount := total } today with
          | none => CreateResult.crashed
          | some db3 => CreateResult.ok db3 oid

/-- Outcome of `OrderViewSet.mark_delivered`; error constructors carry the
state, which the early returns leave untouched. -/
inductive MarkDeliveredResult where
  | notFound (db : DB)
  | alreadyDelivered (db : DB)
  | crashed
  | ok (db : DB)
deriving DecidableEq, Repr

/-- `orders/views.py` `OrderViewSet.mark_delivered` (lines 256–287): 400
without any write when the order is already Delivered; otherwise set the
status to Delivered and save (the save's `post_save` receiver performs the
invoice creation). No `DeliveryStatus` event is created. -/
def mark_delivered (db : DB) (oid : Nat) (today : Int) : MarkDeliveredResult :=
  match findOrder db oid with
  | none => MarkDeliveredResult.notFound db
  | some o =>
    if o.status = OrderStatus.DE then MarkDeliveredResult.alreadyDelivered db
    else
      match orderSaveUpdate db { o with status := OrderStatus.DE } today with
      | none => MarkDeliveredResult.crashed
      | some db2 => MarkDeliveredResult.ok db2

/-- Creation of a `DeliveryStatus` event (`add_delivery_status` /
`DeliveryStatusViewSet`) followed by its `post_save` receiver
`handle_delivery_status_update` (`orders/signals.py` lines 59–69): insert
the event; if the new event's status differs from the parent order's
status, write the order's status (a non-creating order save, so the order's
own `post_save` receiver runs too). `none` is a missing parent order
(foreign-key violation) or a crash inside the receiver chain. -/
def add_status_event (db : DB) (oid : Nat) (st : OrderStatus) (today : Int) :
    Option DB :=
  match findOrder db oid with
  | none => none
  | some o =>
    let ev : DeliveryStatus :=
      { id := freshId DeliveryStatus.id db.deliveryStatuses
        order := oid
        status := st }
    let db1 := { db with deliveryStatuses := db.deliveryStatuses ++ [ev] }
    if o.status = st then some db1
    else orderSaveUpdate db1 { o with status := st } today

/-! ## Billing operations -/

/-- Cumulative paid amount of an invoice:
`sum(payment.amount for payment in invoice.payments.all())`. -/
def total_paid (db : DB) (iid : Nat) : ℚ :=
  ((db.payments.filter (fun p => p.invoice = iid)).map Payment.amount).sum

/-- `billing/models.py` `Payment.save`: insert the payment, recompute the
cumulative paid amount, set the invoice status to Paid when
`paid ≥ total_amount`, to PartiallyPaid when `paid > 0`, leave it otherwise,
and save the invoice (which runs `invoiceRecompute`). `none` is a missing
invoice (foreign-key violation). -/
def payment_save (db : DB) (iid : Nat) (amount : ℚ) : Option DB :=
  match findInvoice db iid with
  | none => none
  | some inv =>
    let p : Payment := { id := freshId Payment.id db.payments, invoice := iid, amount := amount }
    let db1 := { db with payments := db.payments ++ [p] }
    let paid := total_paid db1 iid
    let inv2 :=
      if paid ≥ inv.total_amount then { inv with status := InvoiceStatus.PA }
      else if paid > 0 then { inv with status := InvoiceStatus.PP }
      else inv
    some (updateInvoiceRow db1 (invoiceRecompute inv2))

/-- `billing/serializers.py` `CreditNoteSerializer.create` (via
`add_credit_note`): generate the next credit-note number and insert the
credit note; nothing else is touched. `none` is a missing invoice
(foreign-key violation) or a number-parse crash. -/
def credit_note_create (db : DB) (iid : Nat) (amount : ℚ) (reason : String) :
    Option DB :=
  match findInvoice db iid with
  | none => none
  | some _ =>
    match nextCreditNoteNumber db with
    | none => none
    | some num =>
      let cn : CreditNote :=
        { id := freshId CreditNote.id db.creditNotes
          credit_note_number := num
          invoice := iid
          amount := amount
          reason := reason }
      some { db with creditNotes := db.creditNotes ++ [cn] }

/-! ## Derived notions used by the claims -/

/-- Sum of `quantity * unit_price` over an order's items. -/
def itemsTotal (db : DB) (oid : Nat) : ℚ :=
  ((db.orderItems.filter (fun it => it.order = oid)).map
    (fun it => (it.quantity : ℚ) * it.unit_price)).sum

/-- Every order's `total_amount` agrees with the sum of its items. -/
def totalsInvariant (db : DB) : Prop :=
  ∀ o ∈ db.orders, o.total_amount = itemsTotal db o.id

instance : DecidablePred totalsInvariant := fun db =>
  inferInstanceAs (Decidable (∀ o ∈ db.orders, o.total_amount = itemsTotal db o.id))

/-- At most one invoice exists per order. -/
def atMostOneInvoice (db : DB) : Prop :=
  ∀ oid : Nat, (invoicesFor db oid).length ≤ 1

/-- Referential integrity of `OrderItem.order`: every item's order exists. -/
def itemsFKIntegrity (db : DB) : Prop :=
  ∀ it ∈ db.orderItems, ∃ o ∈ db.orders, o.id = it.order

instance : DecidablePred itemsFKIntegrity := fun db =>
  inferInstanceAs (Decidable (∀ it ∈ db.orderItems, ∃ o ∈ db.orders, o.id = it.order))

/-- Status of the order created by a successful creation request. -/
def createdStatus (r : CreateResult) : Option OrderStatus :=
  match r with
  | CreateResult.ok dbx oid => (findOrder dbx oid).map Order.status
  | _ => none

/-- Products left behind by an order-creation error response. -/
def errProducts (r : CreateResult) : Option (List Product) :=
  match r with
  | CreateResult.err _ dbx => some dbx.products
  | _ => none

/-! ## Concrete states used to exercise the operations -/

/-- A delivered order. -/
def ordA : Order :=
  { id := 1, order_number := "ORD000001", status := OrderStatus.DE,
    total_amount := 25, shipping_address := "1 Main St" }

/-- The same order while still pending. -/
def ordP : Order :=
  { id := 1, order_number := "ORD000001", status := OrderStatus.PE,
    total_amount := 25, shipping_address := "1 Main St" }

/-- A delivered order with no invoice yet. -/
def dbA : DB :=
  { products := [], orders := [ordA], orderItems := [], deliveryStatuses := [],
    invoices := [], payments := [], creditNotes := [], quotes := [] }

/-- The pending order with no invoice. -/
def dbP : DB :=
  { products := [], orders := [ordP], orderItems := [], deliveryStatuses := [],
    invoices := [], payments := [], creditNotes := [], quotes := [] }

/-- The invoice the delivery of `ordA` generates. -/
def invB : Invoice :=
  { id := 1, invoice_number := "INV000001", order := 1, status := InvoiceStatus.PE,
    issue_date := 0, due_date := 30, subtotal := 25, tax_rate := 20,
    tax_amount := 5, total_amount := 30 }

/-- The delivered order together with its invoice. -/
def dbB : DB :=
  { products := [], orders := [ordA], orderItems := [], deliveryStatuses := [],
    invoices := [invB], payments := [], creditNotes := [], quotes := [] }

/-- `dbB` after a payment of 30 settles the invoice. -/
def dbBpaid : DB :=
  { dbB with invoices := [{ invB with status := InvoiceStatus.PA }],
             payments := [{ id := 1, invoice := 1, amount := 30 }] }

/-- `dbB` after a credit note of 8 is issued against the invoice. -/
def dbBcn : DB :=
  { dbB with creditNotes :=
      [{ id := 1, credit_note_number := "CN000001", invoice := 1,
         amount := 8, reason := "damaged goods" }] }

/-- `dbA` after an In-Transit delivery event is appended. -/
def dbAIT : DB :=
  { dbA with orders := [{ ordA with status := OrderStatus.IT }],
             deliveryStatuses := [{ id := 1, order := 1, status := OrderStatus.IT }] }

/-- Catalog rows for the order-creation scenarios. -/
def prodA : Product := { id := 1, name := "Widget", price := 10, stock_quantity := 5 }

def prodB : Product := { id := 2, name := "Gadget", price := 5, stock_quantity := 3 }

/-- An empty shop with two products in stock. -/
def dbShop : DB :=
  { products := [prodA, prodB], orders := [], orderItems := [], deliveryStatuses := [],
    invoices := [], payments := [], creditNotes := [], quotes := [] }

/-- A request whose second item names an unknown product. -/
def reqBad : OrderRequest :=
  { shipping_address := "1 Main St", status := none,
    items := [{ product_id := some 1, quantity := 2 },
              { product_id := some 9, quantity := 1 }] }

/-- A request that creates the order directly in Delivered status. -/
def reqDE : OrderRequest :=
  { shipping_address := "1 Main St", status := some OrderStatus.DE,
    items := [{ product_id := some 1, quantity := 2 }] }

/-- A two-item request that succeeds. -/
def reqOk : OrderRequest :=
  { shipping_address := "1 Main St", status := none,
    items := [{ product_id := some 1, quantity := 2 },
              { product_id := some 2, quantity := 1 }] }

/-- The state `reqBad` leaves behind: the order and its item are gone but
product 1's stock is still decremented by 2. -/
def dbShopErr : DB :=
  { dbShop with products := [{ prodA with stock_quantity := 3 }, prodB] }

/-- The state a successful `reqOk` creation produces. -/
def dbShopOk : DB :=
  { products := [{ prodA with stock_quantity := 3 },
                 { prodB with stock_quantity := 2 }]
    orders := [ordP]
    orderItems := [{ id := 1, order := 1, product := 1, quantity := 2,
                     unit_price := 10, total_price := 20 },
                   { id := 2, order := 1, product := 2, quantity := 1,
                     unit_price := 5, total_price := 5 }]
    deliveryStatuses := []
    invoices := []
    payments := []
    creditNotes := []
    quotes := [] }

/-- A consistent one-item order (total 10 = 1 × 10). -/
def ord4 : Order :=
  { id := 1, order_number := "ORD000001", status := OrderStatus.PE,
    total_amount := 10, shipping_address := "1 Main St" }

def item4 : OrderItem :=
  { id := 1, order := 1, product := 1, quantity := 1, unit_price := 10,
    total_price := 10 }

def db4 : DB :=
  { products := [], orders := [ord4], orderItems := [item4], deliveryStatuses := [],
    invoices := [], payments := [], creditNotes := [], quotes := [] }

/-! ## Helper lemmas on keys and lookups -/

section Helpers

variable {α : Type*}

lemma le_foldl_max (get : α → Nat) :
    ∀ (l : List α) (a : Nat), a ≤ l.foldl (fun m x => max m (get x)) a := by
  intro l
  induction l with
  | nil => intro a; simp
  | cons y ys ih =>
      intro a
      exact le_trans (le_max_left a (get y)) (ih (max a (get y)))

lemma mem_le_foldl_max (get : α → Nat) {x : α} :
    ∀ {l : List α} (a : Nat), x ∈ l → get x ≤ l.foldl (fun m y => max m (get y)) a := by
  intro l
  induction l with
  | nil => intro a h; cases h
  | cons y ys ih =>
      intro a h
      rcases List.mem_cons.mp h with h1 | h2
      · subst h1
        exact le_trans (le_max_right a (get x)) (le_foldl_max get ys _)
      · exact ih _ h2

lemma mem_le_maxId (get : α → Nat) {x : α} {l : List α} (h : x ∈ l) :
    get x ≤ maxId get l :=
  mem_le_foldl_max get 0 h

lemma freshId_not_mem (get : α → Nat) {x : α} {l : List α} (h : x ∈ l) :
    get x ≠ freshId get l := by
  have := mem_le_maxId get h
  unfold freshId
  omega

lemma any_eq_freshId_false (get : α → Nat) (l : List α) :
    (l.any fun x => get x = freshId get l) = false := by
  rw [List.any_eq_false]
  intro x hx
  simpa using freshId_not_mem get hx

/-- Looking up the written-back row finds the new value. -/
lemma find?_update (get : α → Nat) (i : Nat) (new : α) (hnew : get new = i) :
    ∀ l : List α, (l.find? fun x => get x = i).isSome →
      ((l.map fun x => if get x = get new then new else x).find? fun x => get x = i) =
        some new := by
  intro l
  induction l with
  | nil => intro h; simp [List.find?] at h
  | cons y ys ih =>
      intro h
      by_cases hy : get y = get new
      · simp only [List.map_cons, if_pos hy]
        exact List.find?_cons_of_pos _ (by simp [hnew])
      · have hyi : ¬ get y = i := fun hgi => hy (hgi.trans hnew.symm)
        simp only [List.map_cons, if_neg hy]
        rw [List.find?_cons_of_neg _ (by simpa using hyi)]
        apply ih
        rw [List.find?_cons_of_neg _ (by simpa using hyi)] at h
        exact h

/-- A freshly keyed row appended to a table is what lookup by that key finds. -/
lemma find?_append_fresh (get : α → Nat) (l : List α) (a : α) (n : Nat)
    (hfresh : ∀ x ∈ l, get x ≠ n) (ha : get a = n) :
    ((l ++ [a]).find? fun x => get x = n) = some a := by
  induction l with
  | nil => simp [List.find?, ha]
  | cons y ys ih =>
      rw [List.cons_append,
        List.find?_cons_of_neg _ (by simpa using hfresh y (List.mem_cons_self y ys))]
      exact ih (fun x hx => hfresh x (List.mem_cons_of_mem y hx))

lemma filter_ne_append_of_eq (p : α → Nat) (l : List α) (a : α) (n : Nat)
    (ha : p a = n) :
    ((l ++ [a]).filter fun x => p x ≠ n) = l.filter fun x => p x ≠ n := by
  simp [List.filter_append, List.filter, ha]

end Helpers

/-! ## Characterisation of the order `post_save` receiver -/

lemma invoiceRecompute_eq_self (i : Invoice)
    (htax : i.tax_amount = i.subtotal * (i.tax_rate / 100))
    (htot : i.total_amount = i.subtotal + i.tax_amount) :
    invoiceRecompute i = i := by
  unfold invoiceRecompute
  by_cases h1 : i.tax_amount = 0
  · have : i.subtotal * (i.tax_rate / 100) = i.tax_amount := htax.symm
    simp only [if_pos h1, this]
    by_cases h2 : i.total_amount = 0
    · simp only [if_pos h2]
      exact congrArg _ htot.symm
    · simp only [if_neg h2]
  · simp only [if_neg h1]
    by_cases h2 : i.total_amount = 0
    · simp only [if_pos h2]
      exact congrArg _ htot.symm
    · simp only [if_neg h2]

/-- The invoice that a non-creating save of a Delivered, not-yet-invoiced
order inserts. -/
def autoInvoice (db : DB) (inst : Order) (num : String) (issue_date : Int) :
    Invoice :=
  { id := freshId Invoice.id db.invoices
    invoice_number := num
    order := inst.id
    status := InvoiceStatus.PE
    issue_date := issue_date
    due_date := issue_date + 30
    subtotal := inst.total_amount
    tax_rate := 20
    tax_amount := inst.total_amount * (20 / 100)
    total_amount := inst.total_amount + inst.total_amount * (20 / 100) }

lemma handler_skip_created (db : DB) (inst : Order) (d : Int) :
    handle_order_status_change db inst true d = some db := rfl

lemma handler_skip_not_delivered (db : DB) (inst : Order) (d : Int)
    (hst : inst.status ≠ OrderStatus.DE) :
    handle_order_status_change db inst false d = some db := by
  unfold handle_order_status_change
  simp [hst]

lemma handler_skip_existing (db : DB) (inst : Order) (d : Int)
    (hst : inst.status = OrderStatus.DE)
    (hex : invoicesFor db inst.id ≠ []) :
    handle_order_status_change db inst false d = some db := by
  unfold handle_order_status_change
  have hex' : ¬ db.invoices.filter (fun i => i.order = inst.id) = [] := hex
  simp [hst, hex']

lemma handler_creates (db : DB) (inst : Order) (d : Int) (db' : DB)
    (hst : inst.status = OrderStatus.DE)
    (hemp : invoicesFor db inst.id = [])
    (h : handle_order_status_change db inst false d = some db') :
    ∃ num, nextInvoiceNumber db = some num ∧
      db' = { db with invoices := db.invoices ++ [autoInvoice db inst num d] } := by
  unfold handle_order_status_change at h
  have hemp' : db.invoices.filter (fun i => i.order = inst.id) = [] := hemp
  rw [if_neg (by simp)] at h
  rw [if_pos hst, if_pos hemp'] at h
  cases hgen : nextInvoiceNumber db with
  | none => rw [hgen] at h; cases h
  | some num =>
      rw [hgen] at h
      refine ⟨num, rfl, ?_⟩
      have hrec : invoiceRecompute (autoInvoice db inst num d) = autoInvoice db inst num d :=
        invoiceRecompute_eq_self _ rfl rfl
      simp only at h
      rw [Option.some_inj] at h
      rw [← h]
      unfold autoInvoice at hrec ⊢
      rw [hrec]

/-- Forward form of `handler_creates`: the non-creating save of a Delivered,
not-yet-invoiced order computes exactly the appended invoice. -/
lemma handler_creates_eq (db : DB) (o : Order) (d : Int) (num : String)
    (hst : o.status = OrderStatus.DE) (hemp : invoicesFor db o.id = [])
    (hgen : nextInvoiceNumber db = some num) :
    handle_order_status_change db o false d =
      some { db with invoices := db.invoices ++ [autoInvoice db o num d] } := by
  unfold handle_order_status_change
  have hemp' : db.invoices.filter (fun i => i.order = o.id) = [] := hemp
  rw [if_neg (by simp), if_pos hst, if_pos hemp', hgen]
  simp only
  have hrec : invoiceRecompute (autoInvoice db o num d) = autoInvoice db o num d :=
    invoiceRecompute_eq_self _ rfl rfl
  unfold autoInvoice at hrec ⊢
  rw [hrec]

/-- Everything a `some` result of the receiver guarantees about the state:
all tables except invoices are untouched, and the invoice table is either
untouched or extended by exactly one invoice of the saved (Delivered,
not-yet-invoiced) order. -/
lemma handler_spec (db : DB) (inst : Order) (c : Bool) (d : Int) (db' : DB)
    (h : handle_order_status_change db inst c d = some db') :
    db'.products = db.products ∧ db'.orders = db.orders ∧
    db'.orderItems = db.orderItems ∧ db'.deliveryStatuses = db.deliveryStatuses ∧
    db'.payments = db.payments ∧ db'.creditNotes = db.creditNotes ∧
    db'.quotes = db.quotes ∧
    (db'.invoices = db.invoices ∨
      (invoicesFor db inst.id = [] ∧
        ∃ inv, inv.order = inst.id ∧ db'.invoices = db.invoices ++ [inv])) := by
  cases c with
  | true =>
      rw [handler_skip_created] at h
      rw [Option.some_inj] at h
      subst h
      exact ⟨rfl, rfl, rfl, rfl, rfl, rfl, rfl, Or.inl rfl⟩
  | false =>
      by_cases hst : inst.status = OrderStatus.DE
      · by_cases hemp : invoicesFor db inst.id = []
        · obtain ⟨num, _, hdb⟩ := handler_creates db inst d db' hst hemp h
          subst hdb
          exact ⟨rfl, rfl, rfl, rfl, rfl, rfl, rfl,
            Or.inr ⟨hemp, autoInvoice db inst num d, rfl, rfl⟩⟩
        · rw [handler_skip_existing db inst d hst hemp] at h
          rw [Option.some_inj] at h
          subst h
          exact ⟨rfl, rfl, rfl, rfl, rfl, rfl, rfl, Or.inl rfl⟩
      · rw [handler_skip_not_delivered db inst d hst] at h
        rw [Option.some_inj] at h
        subst h
        exact ⟨rfl, rfl, rfl, rfl, rfl, rfl, rfl, Or.inl rfl⟩

lemma invoicesFor_congr {db1 db2 : DB} (h : db1.invoices = db2.invoices)
    (oid : Nat) : invoicesFor db1 oid = invoicesFor db2 oid := by
  unfold invoicesFor
  rw [h]

lemma invoicesFor_append (db : DB) (inv : Invoice) (oid : Nat) (l : List Invoice)
    (h : l = db.invoices ++ [inv]) :
    l.filter (fun i => i.order = oid) =
      invoicesFor db oid ++ if inv.order = oid then [inv] else [] := by
  subst h
  by_cases ho : inv.order = oid
  · simp [invoicesFor, List.filter_append, List.filter, ho]
  · simp [invoicesFor, List.filter_append, List.filter, ho]

lemma handler_preserves_atMostOne (db : DB) (inst : Order) (c : Bool) (d : Int)
    (db' : DB) (h : handle_order_status_change db inst c d = some db')
    (hA : atMostOneInvoice db) : atMostOneInvoice db' := by
  intro oid
  rcases (handler_spec db inst c d db' h).2.2.2.2.2.2.2 with heq | ⟨hemp, inv, hord, happ⟩
  · rw [invoicesFor_congr heq oid]
    exact hA oid
  · show (db'.invoices.filter (fun i => i.order = oid)).length ≤ 1
    rw [invoicesFor_append db inv oid db'.invoices happ]
    by_cases ho : inv.order = oid
    · have : invoicesFor db oid = [] := by
        rw [← ho.symm.trans hord] at hemp
        exact hemp
      simp [this, ho]
    · simp [ho]
      exact hA oid

/-! ## Characterisation of the order-creation item loop -/

lemma orderItemSave_fresh (db : DB) (oi : OrderItem)
    (hfresh : (db.orderItems.any fun x => x.id = oi.id) = false) :
    orderItemSave db oi =
      { db with orderItems :=
          db.orderItems ++ [{ oi with total_price := (oi.quantity : ℚ) * oi.unit_price }] } := by
  unfold orderItemSave
  rw [hfresh]
  simp

lemma orderItemSave_orders (db : DB) (oi : OrderItem) :
    (orderItemSave db oi).orders = db.orders := by
  unfold orderItemSave
  by_cases h : (db.orderItems.any fun x => x.id = oi.id) = true <;> simp [h]

lemma itemsTotal_append (db : DB) (oi : OrderItem) (oid : Nat) :
    itemsTotal { db with orderItems := db.orderItems ++ [oi] } oid =
      itemsTotal db oid +
        (if oi.order = oid then (oi.quantity : ℚ) * oi.unit_price else 0) := by
  unfold itemsTotal
  by_cases h : oi.order = oid <;>
    simp [List.filter_append, List.filter, h]

lemma processItems_inr (oid : Nat) :
    ∀ (items : List OrderItemRequest) (db : DB) (total : ℚ) {db2 : DB} {t2 : ℚ},
      processItems oid db total items = Sum.inr (db2, t2) →
      db2.orders = db.orders ∧ db2.deliveryStatuses = db.deliveryStatuses ∧
      db2.invoices = db.invoices ∧ db2.payments = db.payments ∧
      db2.creditNotes = db.creditNotes ∧ db2.quotes = db.quotes ∧
      itemsTotal db2 oid = itemsTotal db oid + (t2 - total) := by
  intro items
  induction items with
  | nil =>
      intro db total db2 t2 h
      simp only [processItems] at h
      rw [Sum.inr.injEq, Prod.mk.injEq] at h
      obtain ⟨rfl, rfl⟩ := h
      refine ⟨rfl, rfl, rfl, rfl, rfl, rfl, by ring⟩
  | cons item rest ih =>
      intro db total db2 t2 h
      simp only [processItems] at h
      cases hpid : item.product_id with
      | none =>
          simp only [hpid] at h
          exact Sum.noConfusion h
      | some pid =>
          simp only [hpid] at h
          cases hfp : findProduct db pid with
          | none =>
              simp only [hfp] at h
              exact Sum.noConfusion h
          | some product =>
              simp only [hfp] at h
              by_cases hstock : product.stock_quantity < item.quantity
              · rw [if_pos hstock] at h
                exact Sum.noConfusion h
              · rw [if_neg hstock] at h
                set db1 := updateProductRow db
                  { product with stock_quantity := product.stock_quantity - item.quantity }
                  with hdb1
                set oi : OrderItem :=
                  { id := freshId OrderItem.id db1.orderItems
                    order := oid
                    product := pid
                    quantity := item.quantity
                    unit_price := product.price
                    total_price := product.price * (item.quantity : ℚ) } with hoi
                have hstep := ih (orderItemSave db1 oi)
                  (total + product.price * (item.quantity : ℚ)) h
                have hsave : orderItemSave db1 oi =
                    { db1 with orderItems :=
                        db1.orderItems ++
                          [{ oi with total_price := (oi.quantity : ℚ) * oi.unit_price }] } :=
                  orderItemSave_fresh db1 oi
                    (by rw [hoi]; exact any_eq_freshId_false OrderItem.id db1.orderItems)
                rw [hsave] at hstep
                have hIT : itemsTotal
                    { db1 with orderItems :=
                        db1.orderItems ++
                          [{ oi with total_price := (oi.quantity : ℚ) * oi.unit_price }] } oid =
                    itemsTotal db oid + (item.quantity : ℚ) * product.price := by
                  rw [itemsTotal_append]
                  have : itemsTotal db1 oid = itemsTotal db oid := rfl
                  rw [this]
                  simp [hoi]
                refine ⟨hstep.1, hstep.2.1, hstep.2.2.1, hstep.2.2.2.1,
                  hstep.2.2.2.2.1, hstep.2.2.2.2.2.1, ?_⟩
                rw [hstep.2.2.2.2.2.2, hIT]
                ring

lemma processItems_inl (oid : Nat) :
    ∀ (items : List OrderItemRequest) (db : DB) (total : ℚ) {msg : String} {db2 : DB},
      processItems oid db total items = Sum.inl (msg, db2) →
      ∃ dbm, db2 = deleteOrder dbm oid ∧ dbm.orders = db.orders ∧
        dbm.deliveryStatuses = db.deliveryStatuses ∧ dbm.invoices = db.invoices ∧
        dbm.payments = db.payments ∧ dbm.creditNotes = db.creditNotes ∧
        dbm.quotes = db.quotes ∧
        dbm.orderItems.filter (fun it => it.order ≠ oid) =
          db.orderItems.filter (fun it => it.order ≠ oid) := by
  intro items
  induction items with
  | nil => intro db total msg db2 h; simp only [processItems] at h; cases h
  | cons item rest ih =>
      intro db total msg db2 h
      simp only [processItems] at h
      cases hpid : item.product_id with
      | none =>
          simp only [hpid] at h
          rw [Sum.inl.injEq, Prod.mk.injEq] at h
          exact ⟨db, h.2.symm, rfl, rfl, rfl, rfl, rfl, rfl, rfl⟩
      | some pid =>
          simp only [hpid] at h
          cases hfp : findProduct db pid with
          | none =>
              simp only [hfp] at h
              rw [Sum.inl.injEq, Prod.mk.injEq] at h
              exact ⟨db, h.2.symm, rfl, rfl, rfl, rfl, rfl, rfl, rfl⟩
          | some product =>
              simp only [hfp] at h
              by_cases hstock : product.stock_quantity < item.quantity
              · rw [if_pos hstock] at h
                rw [Sum.inl.injEq, Prod.mk.injEq] at h
                exact ⟨db, h.2.symm, rfl, rfl, rfl, rfl, rfl, rfl, rfl⟩
              · rw [if_neg hstock] at h
                set db1 := updateProductRow db
                  { product with stock_quantity := product.stock_quantity - item.quantity }
                  with hdb1
                set oi : OrderItem :=
                  { id := freshId OrderItem.id db1.orderItems
                    order := oid
                    product := pid
                    quantity := item.quantity
                    unit_price := product.price
                    total_price := product.price * (item.quantity : ℚ) } with hoi
                obtain ⟨dbm, hdel, ho, hds, hinv, hpay, hcn, hq, hfil⟩ :=
                  ih (orderItemSave db1 oi)
                    (total + product.price * (item.quantity : ℚ)) h
                have hsave : orderItemSave db1 oi =
                    { db1 with orderItems :=
                        db1.orderItems ++
                          [{ oi with total_price := (oi.quantity : ℚ) * oi.unit_price }] } :=
                  orderItemSave_fresh db1 oi
                    (by rw [hoi]; exact any_eq_freshId_false OrderItem.id db1.orderItems)
                rw [hsave] at ho hds hinv hpay hcn hq hfil
                refine ⟨dbm, hdel, ho, hds, hinv, hpay, hcn, hq, ?_⟩
                rw [hfil]
                exact filter_ne_append_of_eq OrderItem.order db1.orderItems _ oid rfl

lemma itemsTotal_congr {db1 db2 : DB} (h : db1.orderItems = db2.orderItems)
    (oid : Nat) : itemsTotal db1 oid = itemsTotal db2 oid := by
  unfold itemsTotal
  rw [h]

lemma itemsTotal_fresh_zero (db : DB) (hFK : itemsFKIntegrity db) :
    itemsTotal db (freshId Order.id db.orders) = 0 := by
  unfold itemsTotal
  have hfil : db.orderItems.filter
      (fun it => it.order = freshId Order.id db.orders) = [] := by
    rw [List.filter_eq_nil_iff]
    intro it hit
    obtain ⟨o, ho, hoid⟩ := hFK it hit
    have hne := freshId_not_mem Order.id ho
    rw [hoid] at hne
    simpa using hne
  rw [hfil]
  simp

lemma findOrder_id {db : DB} {oid : Nat} {o : Order}
    (h : findOrder db oid = some o) : o.id = oid := by
  have := List.find?_some h
  simpa using this

lemma findInvoice_id {db : DB} {iid : Nat} {i : Invoice}
    (h : findInvoice db iid = some i) : i.id = iid := by
  have := List.find?_some h
  simpa using this

/-- What a successful `OrderViewSet.create` guarantees: the new order row
exists with the generated number, the requested (default Pending) status and
the accumulated total; no delivery events are created; and — under
referential integrity of the pre-state — the stored total is the sum of the
new order's items. -/
lemma order_create_ok (db : DB) (req : OrderRequest) (d : Int) (db' : DB) (oid : Nat)
    (h : order_create db req d = CreateResult.ok db' oid) :
    ∃ num total,
      nextOrderNumber db = some num ∧
      oid = freshId Order.id db.orders ∧
      findOrder db' oid = some
        { id := oid
          order_number := num
          status := req.status.getD OrderStatus.PE
          total_amount := total
          shipping_address := req.shipping_address } ∧
      db'.deliveryStatuses = db.deliveryStatuses ∧
      (itemsFKIntegrity db → total = itemsTotal db' oid) := by
  unfold order_create at h
  by_cases hit : req.items = []
  · rw [if_pos hit] at h; exact CreateResult.noConfusion h
  rw [if_neg hit] at h
  by_cases hsh : req.shipping_address = ""
  · rw [if_pos hsh] at h; exact CreateResult.noConfusion h
  rw [if_neg hsh] at h
  cases hnum : nextOrderNumber db with
  | none => simp only [hnum] at h; exact CreateResult.noConfusion h
  | some num =>
  simp only [hnum, handler_skip_created] at h
  set oid0 := freshId Order.id db.orders with hoid0
  set order : Order :=
    { id := oid0
      order_number := num
      status := req.status.getD OrderStatus.PE
      total_amount := 0
      shipping_address := req.shipping_address } with horder
  set db1 : DB := { db with orders := db.orders ++ [order] } with hdb1
  cases hpi : processItems oid0 db1 0 req.items with
  | inl p =>
      obtain ⟨msg, dbe⟩ := p
      simp only [hpi] at h
      exact CreateResult.noConfusion h
  | inr p =>
      obtain ⟨db2, total⟩ := p
      simp only [hpi] at h
      set o2 : Order :=
        { id := oid0
          order_number := num
          status := req.status.getD OrderStatus.PE
          total_amount := total
          shipping_address := req.shipping_address } with ho2def
      cases hsave : orderSaveUpdate db2 o2 d with
      | none =>
          simp only [hsave] at h
          exact CreateResult.noConfusion h
      | some db3 =>
          simp only [hsave] at h
          rw [CreateResult.ok.injEq] at h
          obtain ⟨hdb', hoid⟩ := h
          subst hdb'
          subst hoid
          obtain ⟨hord2, hds2, _, _, _, _, htot2⟩ :=
            processItems_inr oid0 req.items db1 0 hpi
          unfold orderSaveUpdate at hsave
          have hspec := handler_spec _ _ _ _ _ hsave
          have horders3 : db3.orders =
              db2.orders.map (fun x => if x.id = o2.id then o2 else x) := hspec.2.1
          have hfind2 : (db2.orders.find? fun x => x.id = oid0) = some order := by
            rw [hord2]
            show ((db.orders ++ [order]).find? fun x => x.id = oid0) = some order
            exact find?_append_fresh Order.id db.orders order oid0
              (fun x hx => freshId_not_mem Order.id hx) rfl
          have hfind3 : findOrder db3 oid0 = some o2 := by
            unfold findOrder
            rw [horders3]
            exact find?_update Order.id oid0 o2 rfl
              db2.orders (by rw [hfind2]; rfl)
          refine ⟨num, total, rfl, rfl, ?_, ?_, ?_⟩
          · exact hfind3
          · rw [hspec.2.2.2.1]
            show db2.deliveryStatuses = db.deliveryStatuses
            rw [hds2]
          · intro hFK
            have hoi3 : db3.orderItems = db2.orderItems := hspec.2.2.1
            rw [itemsTotal_congr hoi3 oid0, htot2]
            have hoi1 : itemsTotal db1 oid0 = itemsTotal db oid0 := rfl
            rw [hoi1, hoid0, itemsTotal_fresh_zero db hFK]
            ring

/-- What an error response of `OrderViewSet.create` guarantees: with
referential integrity of the pre-state, the compensating delete restores
every table except products — stock already decremented for earlier items
of the failed request stays decremented. -/
lemma order_create_err (db : DB) (req : OrderRequest) (d : Int) (msg : String)
    (db' : DB) (hFK : itemsFKIntegrity db)
    (h : order_create db req d = CreateResult.err msg db') :
    db'.orders = db.orders ∧ db'.orderItems = db.orderItems ∧
    db'.deliveryStatuses = db.deliveryStatuses ∧ db'.invoices = db.invoices ∧
    db'.payments = db.payments ∧ db'.creditNotes = db.creditNotes ∧
    db'.quotes = db.quotes := by
  unfold order_create at h
  by_cases hit : req.items = []
  · rw [if_pos hit, CreateResult.err.injEq] at h
    rw [← h.2]
    exact ⟨rfl, rfl, rfl, rfl, rfl, rfl, rfl⟩
  rw [if_neg hit] at h
  by_cases hsh : req.shipping_address = ""
  · rw [if_pos hsh, CreateResult.err.injEq] at h
    rw [← h.2]
    exact ⟨rfl, rfl, rfl, rfl, rfl, rfl, rfl⟩
  rw [if_neg hsh] at h
  cases hnum : nextOrderNumber db with
  | none => simp only [hnum] at h; exact CreateResult.noConfusion h
  | some num =>
  simp only [hnum, handler_skip_created] at h
  set oid0 := freshId Order.id db.orders with hoid0
  set order : Order :=
    { id := oid0
      order_number := num
      status := req.status.getD OrderStatus.PE
      total_amount := 0
      shipping_address := req.shipping_address } with horder
  set db1 : DB := { db with orders := db.orders ++ [order] } with hdb1
  cases hpi : processItems oid0 db1 0 req.items with
  | inr p =>
      obtain ⟨db2, total⟩ := p
      simp only [hpi] at h
      cases hsave : orderSaveUpdate db2
          { id := oid0
            order_number := num
            status := req.status.getD OrderStatus.PE
            total_amount := total
            shipping_address := req.shipping_address } d with
      | none =>
          simp only [hsave] at h
          exact CreateResult.noConfusion h
      | some db3 =>
          simp only [hsave] at h
          exact CreateResult.noConfusion h
  | inl p =>
      obtain ⟨emsg, dbe⟩ := p
      simp only [hpi] at h
      rw [CreateResult.err.injEq] at h
      obtain ⟨-, hdb'⟩ := h
      obtain ⟨dbm, hdel, hord, hds, hinv, hpay, hcn, hq, hfil⟩ :=
        processItems_inl oid0 req.items db1 0 hpi
      subst hdel
      rw [← hdb']
      refine ⟨?_, ?_, hds, hinv, hpay, hcn, hq⟩
      · show (dbm.orders.filter fun o => o.id ≠ oid0) = db.orders
        rw [hord]
        show ((db.orders ++ [order]).filter fun o => o.id ≠ oid0) = db.orders
        rw [filter_ne_append_of_eq Order.id db.orders order oid0 rfl]
        rw [List.filter_eq_self]
        intro x hx
        simpa using freshId_not_mem Order.id hx
      · show (dbm.orderItems.filter fun it => it.order ≠ oid0) = db.orderItems
        rw [hfil]
        show (db.orderItems.filter fun it => it.order ≠ oid0) = db.orderItems
        rw [List.filter_eq_self]
        intro it hit'
        obtain ⟨o, ho, hoid⟩ := hFK it hit'
        have hne := freshId_not_mem Order.id ho
        rw [hoid] at hne
        simpa using hne

/-! ## Characterisation of the remaining operations -/

lemma invoiceRecompute_proj (i : Invoice) :
    (invoiceRecompute i).id = i.id ∧ (invoiceRecompute i).status = i.status ∧
    (invoiceRecompute i).order = i.order ∧
    (invoiceRecompute i).subtotal = i.subtotal := by
  unfold invoiceRecompute
  by_cases h1 : i.tax_amount = 0 <;>
    simp only [h1, if_true, if_false, ite_true, ite_false] <;>
  · split <;> exact ⟨rfl, rfl, rfl, rfl⟩

lemma total_paid_insert (db : DB) (p : Payment) (iid : Nat) (hiid : p.invoice = iid) :
    total_paid { db with payments := db.payments ++ [p] } iid
      = total_paid db iid + p.amount := by
  unfold total_paid
  simp [List.filter_append, List.filter, hiid]

/-- `Payment.save` fully characterised: the payment is appended, the paid
total grows by its amount, and the invoice's status follows the
paid-vs-total comparison while its other fields survive `Invoice.save`. -/
lemma payment_save_spec (db : DB) (iid : Nat) (amount : ℚ) (inv : Invoice)
    (db' : DB) (hfind : findInvoice db iid = some inv)
    (h : payment_save db iid amount = some db') :
    db'.payments = db.payments ++
      [{ id := freshId Payment.id db.payments, invoice := iid, amount := amount }] ∧
    total_paid db' iid = total_paid db iid + amount ∧
    (findInvoice db' iid).map Invoice.status = some
      (if total_paid db' iid ≥ inv.total_amount then InvoiceStatus.PA
       else if 0 < total_paid db' iid then InvoiceStatus.PP
       else inv.status) := by
  unfold payment_save at h
  simp only [hfind] at h
  rw [Option.some_inj] at h
  set p : Payment :=
    { id := freshId Payment.id db.payments, invoice := iid, amount := amount } with hp
  set db1 : DB := { db with payments := db.payments ++ [p] } with hdb1
  set paid := total_paid db1 iid with hpaid
  set inv2 : Invoice :=
    (if paid ≥ inv.total_amount then { inv with status := InvoiceStatus.PA }
     else if paid > 0 then { inv with status := InvoiceStatus.PP }
     else inv) with hinv2
  have hpay' : db'.payments = db1.payments := by rw [← h]; rfl
  have hpaid' : total_paid db' iid = total_paid db1 iid := by
    unfold total_paid
    rw [hpay']
  have hpaidins : total_paid db1 iid = total_paid db iid + amount :=
    total_paid_insert db p iid rfl
  refine ⟨by rw [hpay'], by rw [hpaid', hpaidins], ?_⟩
  have hid2 : inv2.id = iid := by
    rw [hinv2]
    have hi := findInvoice_id hfind
    by_cases h1 : paid ≥ inv.total_amount
    · simp [h1, hi]
    · by_cases h2 : paid > 0 <;> simp [h1, h2, hi]
  have hfind' : findInvoice db' iid = some (invoiceRecompute inv2) := by
    rw [← h]
    unfold findInvoice updateInvoiceRow
    have hnew : (invoiceRecompute inv2).id = iid := by
      rw [(invoiceRecompute_proj inv2).1, hid2]
    have hrw : (fun x : Invoice => if x.id = iid then invoiceRecompute inv2 else x)
        = (fun x : Invoice =>
            if x.id = (invoiceRecompute inv2).id then invoiceRecompute inv2 else x) := by
      funext x
      rw [hnew]
    show (db1.invoices.map
        (fun x => if x.id = (invoiceRecompute inv2).id then invoiceRecompute inv2 else x)).find?
        (fun i => i.id = iid) = some (invoiceRecompute inv2)
    apply find?_update Invoice.id iid (invoiceRecompute inv2) hnew
    show (findInvoice db iid).isSome = true
    rw [hfind]
    rfl
  rw [hfind']
  have hst2 : (invoiceRecompute inv2).status = inv2.status := (invoiceRecompute_proj inv2).2.1
  simp only [Option.map_some']
  rw [hst2, hinv2]
  rw [hpaid', ← hpaid]
  by_cases h1 : paid ≥ inv.total_amount
  · simp [h1]
  · by_cases h2 : 0 < paid
    · have h2' : paid > 0 := h2
      simp [h1, h2, h2']
    · simp [h1, h2]

lemma orderSaveUpdate_deliveryStatuses (db : DB) (o : Order) (d : Int) (db' : DB)
    (h : orderSaveUpdate db o d = some db') :
    db'.deliveryStatuses = db.deliveryStatuses := by
  unfold orderSaveUpdate at h
  have := (handler_spec _ _ _ _ _ h).2.2.2.1
  rw [this]
  rfl

/-- `mark_delivered` success fully characterised. -/
lemma mark_delivered_ok (db : DB) (oid : Nat) (d : Int) (db' : DB)
    (h : mark_delivered db oid d = MarkDeliveredResult.ok db') :
    ∃ o, findOrder db oid = some o ∧ o.status ≠ OrderStatus.DE ∧
      (findOrder db' oid).map Order.status = some OrderStatus.DE ∧
      (invoicesFor db' oid).length =
        (if invoicesFor db oid = [] then 1 else (invoicesFor db oid).length) ∧
      db'.deliveryStatuses = db.deliveryStatuses := by
  unfold mark_delivered at h
  cases hfind : findOrder db oid with
  | none =>
      simp only [hfind] at h
      exact MarkDeliveredResult.noConfusion h
  | some o =>
  simp only [hfind] at h
  by_cases hst : o.status = OrderStatus.DE
  · rw [if_pos hst] at h
    exact MarkDeliveredResult.noConfusion h
  rw [if_neg hst] at h
  set o2 : Order := { o with status := OrderStatus.DE } with ho2
  cases hsave : orderSaveUpdate db o2 d with
  | none => rw [hsave] at h; exact MarkDeliveredResult.noConfusion h
  | some db2 =>
  rw [hsave] at h
  rw [MarkDeliveredResult.ok.injEq] at h
  subst h
  have hoid : o.id = oid := findOrder_id hfind
  have hds := orderSaveUpdate_deliveryStatuses db o2 d db2 hsave
  unfold orderSaveUpdate at hsave
  have hspec := handler_spec _ _ _ _ _ hsave
  refine ⟨o, rfl, hst, ?_, ?_, hds⟩
  · unfold findOrder
    rw [hspec.2.1]
    have := find?_update Order.id oid o2 (by rw [ho2]; exact hoid) db.orders
      (by rw [show (db.orders.find? fun x => x.id = oid) = some o from hfind]; rfl)
    rw [show (updateOrderRow db o2).orders
        = db.orders.map (fun x => if x.id = o2.id then o2 else x) from rfl]
    rw [this]
    rfl
  · have hinvu : (updateOrderRow db o2).invoices = db.invoices := rfl
    by_cases hemp : invoicesFor db oid = []
    · have hemp2 : invoicesFor (updateOrderRow db o2) o2.id = [] := by
        have : invoicesFor (updateOrderRow db o2) o2.id = invoicesFor db o2.id :=
          invoicesFor_congr hinvu o2.id
        rw [this, ho2]
        show invoicesFor db o.id = []
        rw [hoid]
        exact hemp
      obtain ⟨num, hgen, hdb2⟩ :=
        handler_creates (updateOrderRow db o2) o2 d db2 (by rw [ho2]) hemp2 hsave
      have hauto : (autoInvoice (updateOrderRow db o2) o2 num d).order = oid := by
        show o2.id = oid
        rw [ho2]
        exact hoid
      have hinv2 : db2.invoices = db.invoices ++
          [autoInvoice (updateOrderRow db o2) o2 num d] := by
        rw [hdb2]
        rfl
      show (db2.invoices.filter fun i => i.order = oid).length = _
      rw [invoicesFor_append db _ oid db2.invoices hinv2, if_pos hauto, if_pos hemp]
      have : invoicesFor db oid = [] := hemp
      simp [this]
    · have hemp2 : invoicesFor (updateOrderRow db o2) o2.id ≠ [] := by
        have hcg : invoicesFor (updateOrderRow db o2) o2.id = invoicesFor db o2.id :=
          invoicesFor_congr hinvu o2.id
        rw [hcg, ho2]
        show invoicesFor db o.id ≠ []
        rw [hoid]
        exact hemp
      rw [handler_skip_existing _ _ _ (by rw [ho2]) hemp2] at hsave
      rw [Option.some_inj] at hsave
      rw [← hsave]
      rw [if_neg hemp]
      have : invoicesFor (updateOrderRow db o2) oid = invoicesFor db oid :=
        invoicesFor_congr hinvu oid
      rw [this]

/-- Appending a delivery-status event fully characterised. -/
lemma add_status_event_spec (db : DB) (oid : Nat) (st : OrderStatus) (d : Int)
    (o : Order) (db' : DB) (hfind : findOrder db oid = some o)
    (h : add_status_event db oid st d = some db') :
    (findOrder db' oid).map Order.status = some st ∧
    (o.status = st → db'.orders = db.orders) ∧
    db'.deliveryStatuses = db.deliveryStatuses ++
      [{ id := freshId DeliveryStatus.id db.deliveryStatuses
         order := oid
         status := st }] := by
  unfold add_status_event at h
  simp only [hfind] at h
  have hoid : o.id = oid := findOrder_id hfind
  set ev : DeliveryStatus :=
    { id := freshId DeliveryStatus.id db.deliveryStatuses
      order := oid
      status := st } with hev
  set db1 : DB := { db with deliveryStatuses := db.deliveryStatuses ++ [ev] } with hdb1
  by_cases heq : o.status = st
  · rw [if_pos heq] at h
    rw [Option.some_inj] at h
    subst h
    refine ⟨?_, fun _ => rfl, rfl⟩
    have : findOrder db1 oid = findOrder db oid := rfl
    rw [this, hfind]
    simp only [Option.map_some']
    rw [heq]
  · rw [if_neg heq] at h
    have hds := orderSaveUpdate_deliveryStatuses db1 { o with status := st } d db' h
    unfold orderSaveUpdate at h
    have hspec := handler_spec _ _ _ _ _ h
    refine ⟨?_, fun hc => absurd hc heq, hds⟩
    unfold findOrder
    rw [hspec.2.1]
    have hfind1 : (db1.orders.find? fun x => x.id = oid) = some o := hfind
    have := find?_update Order.id oid { o with status := st } hoid db1.orders
      (by rw [hfind1]; rfl)
    rw [show (updateOrderRow db1 { o with status := st }).orders
        = db1.orders.map
            (fun x => if x.id = ({ o with status := st } : Order).id
             then { o with status := st } else x) from rfl]
    rw [this]
    rfl

/-! ## Evaluation of the operations on the concrete states -/

lemma dbA_handler_eq : handle_order_status_change dbA ordA false 0 = some dbB := by
  rw [handler_creates_eq dbA ordA 0 "INV000001" rfl (by decide) (by decide)]
  rw [show autoInvoice dbA ordA "INV000001" 0 = invB from by
    unfold autoInvoice invB
    simp [dbA, ordA, freshId, maxId]
    norm_num]
  rfl

lemma dbB_payment_eq : payment_save dbB 1 30 = some dbBpaid := by
  norm_num [payment_save, findInvoice, dbB, invB, dbBpaid, total_paid, freshId,
    maxId, updateInvoiceRow, invoiceRecompute, List.filter]

lemma dbP_mark_eq : mark_delivered dbP 1 0 = MarkDeliveredResult.ok dbB := by
  unfold mark_delivered
  simp only [show findOrder dbP 1 = some ordP from by decide]
  rw [if_neg (by decide)]
  have hsave : orderSaveUpdate dbP { ordP with status := OrderStatus.DE } 0 = some dbB := by
    unfold orderSaveUpdate
    rw [show updateOrderRow dbP { ordP with status := OrderStatus.DE } = dbA from by decide]
    rw [handler_creates_eq dbA _ 0 "INV000001" rfl (by decide) (by decide)]
    rw [show autoInvoice dbA { ordP with status := OrderStatus.DE } "INV000001" 0 = invB from by
      unfold autoInvoice invB
      simp [dbA, ordP, freshId, maxId]
      norm_num]
    rfl
  rw [hsave]

lemma dbShop_create_eq : order_create dbShop reqOk 0 = CreateResult.ok dbShopOk 1 := by
  unfold order_create
  rw [if_neg (by decide), if_neg (by decide),
      show nextOrderNumber dbShop = some "ORD000001" from by decide]
  simp only [handler_skip_created]
  norm_num [processItems, findProduct, dbShop, prodA, prodB, reqOk, updateProductRow,
    orderItemSave, freshId, maxId, orderSaveUpdate, updateOrderRow,
    handle_order_status_change, dbShopOk, ordP, List.filter, List.any]
  decide

/-! ## Claims -/

/-- C1: For every non-creating save of an Order whose status is Delivered:
if no Invoice exists for that Order, exactly one Invoice is created with
subtotal = order.total_amount, tax_rate = 20, tax_amount = subtotal × 20/100,
total_amount = subtotal + tax_amount, due_date = issue_date + 30 days and
initial status Pending; if an Invoice already exists, none is created; and
the save preserves the at-most-one-invoice-per-order invariant. -/
theorem invoice_autocreation_spec :
    (∀ (db : DB) (o : Order) (d : Int) (db' : DB),
        o.status = OrderStatus.DE → invoicesFor db o.id = [] →
        handle_order_status_change db o false d = some db' →
        ∃ inv, db'.invoices = db.invoices ++ [inv] ∧ inv.order = o.id ∧
          inv.subtotal = o.total_amount ∧ inv.tax_rate = 20 ∧
          inv.tax_amount = inv.subtotal * (20 / 100) ∧
          inv.total_amount = inv.subtotal + inv.tax_amount ∧
          inv.issue_date = d ∧ inv.due_date = d + 30 ∧
          inv.status = InvoiceStatus.PE) ∧
    (∀ (db : DB) (o : Order) (d : Int),
        o.status = OrderStatus.DE → invoicesFor db o.id ≠ [] →
        handle_order_status_change db o false d = some db) ∧
    (∀ (db : DB) (o : Order) (c : Bool) (d : Int) (db' : DB),
        handle_order_status_change db o c d = some db' →
        atMostOneInvoice db → atMostOneInvoice db') := by
  refine ⟨?_, ?_, ?_⟩
  · intro db o d db' hst hemp h
    obtain ⟨num, hgen, hdb'⟩ := handler_creates db o d db' hst hemp h
    refine ⟨autoInvoice db o num d, ?_, rfl, rfl, rfl, rfl, rfl, rfl, rfl, rfl⟩
    rw [hdb']
  · intro db o d hst hex
    exact handler_skip_existing db o d hst hex
  · intro db o c d db' h hA
    exact handler_preserves_atMostOne db o c d db' h hA

theorem invoice_autocreation_spec_witness :
    ∃ inv, dbB.invoices = dbA.invoices ++ [inv] ∧ inv.order = ordA.id ∧
      inv.subtotal = ordA.total_amount ∧ inv.tax_rate = 20 ∧
      inv.tax_amount = inv.subtotal * (20 / 100) ∧
      inv.total_amount = inv.subtotal + inv.tax_amount ∧
      inv.issue_date = 0 ∧ inv.due_date = 0 + 30 ∧
      inv.status = InvoiceStatus.PE :=
  invoice_autocreation_spec.1 dbA ordA 0 dbB (by decide) (by decide) dbA_handler_eq

/-- C2: recording a payment appends it, and the invoice's status afterwards
is Paid when the cumulative paid amount (after the insert) reaches the
invoice total, PartiallyPaid when it is positive but below the total, and
unchanged otherwise. -/
theorem record_payment_status_spec (db : DB) (iid : Nat) (amount : ℚ)
    (inv : Invoice) (db' : DB)
    (hfind : findInvoice db iid = some inv)
    (h : payment_save db iid amount = some db') :
    total_paid db' iid = total_paid db iid + amount ∧
    (findInvoice db' iid).map Invoice.status = some
      (if total_paid db' iid ≥ inv.total_amount then InvoiceStatus.PA
       else if 0 < total_paid db' iid then InvoiceStatus.PP
       else inv.status) := by
  have hspec := payment_save_spec db iid amount inv db' hfind h
  exact ⟨hspec.2.1, hspec.2.2⟩

theorem record_payment_status_spec_witness :
    total_paid dbBpaid 1 = total_paid dbB 1 + 30 ∧
    (findInvoice dbBpaid 1).map Invoice.status = some
      (if total_paid dbBpaid 1 ≥ invB.total_amount then InvoiceStatus.PA
       else if 0 < total_paid dbBpaid 1 then InvoiceStatus.PP
       else invB.status) :=
  record_payment_status_spec dbB 1 30 invB dbBpaid (by decide) dbB_payment_eq

/-- C3 counterexample: quote numbers do not follow the claimed scheme — the
first quote number is `Q-00001` (five digits, not six), and the successor is
based on the last quote's primary key plus one, not on its numeric suffix
plus one. -/
theorem quote_numbering_cex :
    nextQuoteNumber none = "Q-00001" ∧
    nextQuoteNumber none ≠ "Q-" ++ zfill 6 1 ∧
    nextQuoteNumber none ≠ "Q" ++ zfill 6 1 ∧
    nextQuoteNumber (some { id := 7, quote_number := "Q-00003" }) = "Q-00008" ∧
    nextQuoteNumber (some { id := 7, quote_number := "Q-00003" }) ≠
      "Q-" ++ zfill 6 (3 + 1) :=
  ⟨rfl, by decide, by decide, rfl, by decide⟩

/-- C3 (amended): orders, invoices and credit notes generate the next
identifier from the numeric suffix of the most recent record (by primary
key) plus one, zero-padded to 6 digits after the prefix (ORD/INV/CN),
starting at PFX000001 when no record exists; quotes instead use the prefix
`Q-` followed by the most recent quote's primary key plus one zero-padded
to 5 digits, starting at `Q-00001`. -/
theorem seq_identifier_amended :
    (∀ db : DB, db.orders = [] → nextOrderNumber db = some "ORD000001") ∧
    (∀ (db : DB) (o : Order) (n : Nat),
        lastById Order.id db.orders = some o →
        String.toNat? (String.drop o.order_number 3) = some n →
        nextOrderNumber db = some ("ORD" ++ zfill 6 (n + 1))) ∧
    (∀ db : DB, db.invoices = [] → nextInvoiceNumber db = some "INV000001") ∧
    (∀ (db : DB) (i : Invoice) (n : Nat),
        lastById Invoice.id db.invoices = some i →
        String.toNat? (String.drop i.invoice_number 3) = some n →
        nextInvoiceNumber db = some ("INV" ++ zfill 6 (n + 1))) ∧
    (∀ db : DB, db.creditNotes = [] → nextCreditNoteNumber db = some "CN000001") ∧
    (∀ (db : DB) (c : CreditNote) (n : Nat),
        lastById CreditNote.id db.creditNotes = some c →
        String.toNat? (String.drop c.credit_note_number 2) = some n →
        nextCreditNoteNumber db = some ("CN" ++ zfill 6 (n + 1))) ∧
    nextQuoteNumber none = "Q-00001" ∧
    (∀ q : Quote, nextQuoteNumber (some q) = "Q-" ++ zfill 5 (q.id + 1)) := by
  refine ⟨?_, ?_, ?_, ?_, ?_, ?_, rfl, fun q => rfl⟩
  · intro db h
    unfold nextOrderNumber
    rw [h]
    decide
  · intro db o n h1 h2
    unfold nextOrderNumber
    rw [h1]
    simp only [Option.map_some', nextSeqNumber]
    rw [h2]
    rfl
  · intro db h
    unfold nextInvoiceNumber
    rw [h]
    decide
  · intro db i n h1 h2
    unfold nextInvoiceNumber
    rw [h1]
    simp only [Option.map_some', nextSeqNumber]
    rw [h2]
    rfl
  · intro db h
    unfold nextCreditNoteNumber
    rw [h]
    decide
  · intro db c n h1 h2
    unfold nextCreditNoteNumber
    rw [h1]
    simp only [Option.map_some', nextSeqNumber]
    rw [h2]
    rfl

theorem seq_identifier_amended_witness :
    nextOrderNumber dbShop = some "ORD000001" :=
  seq_identifier_amended.1 dbShop (by decide)

/-- C4 counterexample: the order-total/items equality holds of a state but
is destroyed by a later save of one of the order's items with a changed
quantity — `OrderItem.save` recomputes only the item's own `total_price`
and leaves the parent order's `total_amount` stale. -/
theorem order_total_preservation_cex :
    totalsInvariant db4 ∧
    ¬ totalsInvariant (orderItemSave db4 { item4 with quantity := 2 }) := by
  constructor
  · norm_num [totalsInvariant, itemsTotal, db4, ord4, item4, List.filter]
  · norm_num [totalsInvariant, orderItemSave, itemsTotal, db4, ord4, item4,
      List.filter, List.any]

/-- C4 (amended): every successfully created order satisfies
total_amount = Σ item.quantity × item.unit_price at creation time, but the
equality is not maintained afterwards: a save of an individual OrderItem
never modifies any order row. -/
theorem order_total_at_creation_amended :
    (∀ (db : DB) (req : OrderRequest) (d : Int) (db' : DB) (oid : Nat),
        itemsFKIntegrity db →
        order_create db req d = CreateResult.ok db' oid →
        ∃ o, findOrder db' oid = some o ∧ o.total_amount = itemsTotal db' oid) ∧
    (∀ (db : DB) (item : OrderItem), (orderItemSave db item).orders = db.orders) := by
  constructor
  · intro db req d db' oid hFK h
    obtain ⟨num, total, hnum, hoid, hfind, hds, htot⟩ := order_create_ok db req d db' oid h
    exact ⟨_, hfind, htot hFK⟩
  · intro db item
    exact orderItemSave_orders db item

theorem order_total_at_creation_amended_witness :
    ∃ o, findOrder dbShopOk 1 = some o ∧ o.total_amount = itemsTotal dbShopOk 1 :=
  order_total_at_creation_amended.1 dbShop reqOk 0 dbShopOk 1 (by decide) dbShop_create_eq

/-- C5 counterexample: a failed order creation does leave a stock change
behind — the error response after the second item of `reqBad` fails names
a state whose product stock differs from the initial one (product 1 keeps
the decrement performed for the first item). -/
theorem order_create_stock_cex :
    errProducts (order_create dbShop reqBad 0) = some dbShopErr.products ∧
    dbShopErr.products ≠ dbShop.products :=
  ⟨by decide, by decide⟩

/-- C5 (amended): when any item of an order-creation request fails, the
compensating delete removes the order and all its items — orders, order
items, delivery events, invoices, payments, credit notes and quotes are
exactly as before — but stock decrements already applied for earlier items
of the request are not rolled back. -/
theorem order_create_rollback_amended (db : DB) (req : OrderRequest) (d : Int)
    (msg : String) (db' : DB) (hFK : itemsFKIntegrity db)
    (h : order_create db req d = CreateResult.err msg db') :
    db'.orders = db.orders ∧ db'.orderItems = db.orderItems ∧
    db'.deliveryStatuses = db.deliveryStatuses ∧ db'.invoices = db.invoices ∧
    db'.payments = db.payments ∧ db'.creditNotes = db.creditNotes ∧
    db'.quotes = db.quotes :=
  order_create_err db req d msg db' hFK h

theorem order_create_rollback_amended_witness :
    dbShopErr.orders = dbShop.orders ∧ dbShopErr.orderItems = dbShop.orderItems ∧
    dbShopErr.deliveryStatuses = dbShop.deliveryStatuses ∧
    dbShopErr.invoices = dbShop.invoices ∧
    dbShopErr.payments = dbShop.payments ∧
    dbShopErr.creditNotes = dbShop.creditNotes ∧
    dbShopErr.quotes = dbShop.quotes :=
  order_create_rollback_amended dbShop reqBad 0 "Product does not exist" dbShopErr
    (by decide) (by decide)

/-- C6: `mark_delivered` on an already-Delivered order fails with the
already-delivered error and performs no write; on success the order's
status becomes Delivered and exactly one invoice is created when none
existed (none is added when one already exists). -/
theorem mark_delivered_spec :
    (∀ (db : DB) (oid : Nat) (d : Int) (o : Order),
        findOrder db oid = some o → o.status = OrderStatus.DE →
        mark_delivered db oid d = MarkDeliveredResult.alreadyDelivered db) ∧
    (∀ (db : DB) (oid : Nat) (d : Int) (db' : DB),
        mark_delivered db oid d = MarkDeliveredResult.ok db' →
        (findOrder db' oid).map Order.status = some OrderStatus.DE ∧
        (invoicesFor db' oid).length =
          (if invoicesFor db oid = [] then 1 else (invoicesFor db oid).length)) := by
  constructor
  · intro db oid d o hfind hst
    unfold mark_delivered
    simp only [hfind]
    rw [if_pos hst]
  · intro db oid d db' h
    obtain ⟨o, _, _, h1, h2, _⟩ := mark_delivered_ok db oid d db' h
    exact ⟨h1, h2⟩

theorem mark_delivered_spec_witness :
    mark_delivered dbA 1 0 = MarkDeliveredResult.alreadyDelivered dbA ∧
    ((findOrder dbB 1).map Order.status = some OrderStatus.DE ∧
      (invoicesFor dbB 1).length =
        (if invoicesFor dbP 1 = [] then 1 else (invoicesFor dbP 1).length)) :=
  ⟨mark_delivered_spec.1 dbA 1 0 ordA (by decide) (by decide),
   mark_delivered_spec.2 dbP 1 0 dbB dbP_mark_eq⟩

/-- C7: appending a delivery-status event leaves the order's status equal to
the event's status, writing the order only when the two differed, and the
synchronisation is one-directional — a direct status save and
`mark_delivered` never create an event. -/
theorem delivery_event_sync_spec :
    (∀ (db : DB) (oid : Nat) (st : OrderStatus) (d : Int) (o : Order) (db' : DB),
        findOrder db oid = some o →
        add_status_event db oid st d = some db' →
        (findOrder db' oid).map Order.status = some st ∧
        (o.status = st → db'.orders = db.orders) ∧
        db'.deliveryStatuses = db.deliveryStatuses ++
          [{ id := freshId DeliveryStatus.id db.deliveryStatuses
             order := oid
             status := st }]) ∧
    (∀ (db : DB) (o : Order) (d : Int) (db' : DB),
        orderSaveUpdate db o d = some db' →
        db'.deliveryStatuses = db.deliveryStatuses) ∧
    (∀ (db : DB) (oid : Nat) (d : Int) (db' : DB),
        mark_delivered db oid d = MarkDeliveredResult.ok db' →
        db'.deliveryStatuses = db.deliveryStatuses) := by
  refine ⟨?_, ?_, ?_⟩
  · intro db oid st d o db' hfind h
    exact add_status_event_spec db oid st d o db' hfind h
  · intro db o d db' h
    exact orderSaveUpdate_deliveryStatuses db o d db' h
  · intro db oid d db' h
    obtain ⟨o, _, _, _, _, hds⟩ := mark_delivered_ok db oid d db' h
    exact hds

theorem delivery_event_sync_spec_witness :
    (findOrder dbAIT 1).map Order.status = some OrderStatus.IT ∧
    (ordA.status = OrderStatus.IT → dbAIT.orders = dbA.orders) ∧
    dbAIT.deliveryStatuses = dbA.deliveryStatuses ++
      [{ id := freshId DeliveryStatus.id dbA.deliveryStatuses
         order := 1
         status := OrderStatus.IT }] :=
  delivery_event_sync_spec.1 dbA 1 OrderStatus.IT 0 ordA dbAIT (by decide) (by decide)

/-- C8: issuing a credit note appends exactly one CreditNote with the
generated sequential number and changes nothing else — in particular the
invoice row (subtotal, tax_amount, total_amount, status) is untouched. -/
theorem credit_note_frame_spec (db : DB) (iid : Nat) (amount : ℚ)
    (reason : String) (inv : Invoice) (db' : DB)
    (hfind : findInvoice db iid = some inv)
    (h : credit_note_create db iid amount reason = some db') :
    findInvoice db' iid = some inv ∧
    db'.invoices = db.invoices ∧ db'.orders = db.orders ∧
    db'.orderItems = db.orderItems ∧ db'.payments = db.payments ∧
    db'.products = db.products ∧ db'.deliveryStatuses = db.deliveryStatuses ∧
    db'.quotes = db.quotes ∧
    ∃ num, nextCreditNoteNumber db = some num ∧
      db'.creditNotes = db.creditNotes ++
        [{ id := freshId CreditNote.id db.creditNotes
           credit_note_number := num
           invoice := iid
           amount := amount
           reason := reason }] := by
  unfold credit_note_create at h
  simp only [hfind] at h
  cases hn : nextCreditNoteNumber db with
  | none =>
      rw [hn] at h
      exact Option.noConfusion h
  | some num =>
      rw [hn] at h
      rw [Option.some_inj] at h
      subst h
      exact ⟨hfind, rfl, rfl, rfl, rfl, rfl, rfl, rfl, num, rfl, rfl⟩

theorem credit_note_frame_spec_witness :
    findInvoice dbBcn 1 = some invB ∧
    dbBcn.invoices = dbB.invoices ∧ dbBcn.orders = dbB.orders ∧
    dbBcn.orderItems = dbB.orderItems ∧ dbBcn.payments = dbB.payments ∧
    dbBcn.products = dbB.products ∧ dbBcn.deliveryStatuses = dbB.deliveryStatuses ∧
    dbBcn.quotes = dbB.quotes ∧
    ∃ num, nextCreditNoteNumber dbB = some num ∧
      dbBcn.creditNotes = dbB.creditNotes ++
        [{ id := freshId CreditNote.id dbB.creditNotes
           credit_note_number := num
           invoice := 1
           amount := 8
           reason := "damaged goods" }] :=
  credit_note_frame_spec dbB 1 8 "damaged goods" invB dbBcn (by decide) (by decide)

/-- C9 counterexample: the immutability part of the claim is false — a
Delivered order's status is overwritten by a newly created delivery-status
event with a different status, and an order can even be created directly in
Delivered (non-Pending) status since the serializer's status field is
writable. -/
theorem order_immutability_cex :
    (findOrder dbA 1).map Order.status = some OrderStatus.DE ∧
    add_status_event dbA 1 OrderStatus.IT 0 = some dbAIT ∧
    (findOrder dbAIT 1).map Order.status = some OrderStatus.IT ∧
    createdStatus (order_create dbShop reqDE 0) = some OrderStatus.DE :=
  ⟨by decide, by decide, by decide, by decide⟩

/-- C9 (amended): an order created by a request that supplies no status is
Pending; but Delivered and Cancelled orders are not immutable — a newly
created delivery-status event with a different status overwrites the
order's status, and `mark_delivered` moves a Cancelled order to
Delivered. -/
theorem order_lifecycle_amended :
    (∀ (db : DB) (req : OrderRequest) (d : Int) (db' : DB) (oid : Nat),
        req.status = none →
        order_create db req d = CreateResult.ok db' oid →
        (findOrder db' oid).map Order.status = some OrderStatus.PE) ∧
    (∀ (db : DB) (oid : Nat) (st : OrderStatus) (d : Int) (o : Order) (db' : DB),
        findOrder db oid = some o →
        (o.status = OrderStatus.DE ∨ o.status = OrderStatus.CA) →
        add_status_event db oid st d = some db' →
        (findOrder db' oid).map Order.status = some st) ∧
    (∀ (db : DB) (oid : Nat) (d : Int) (o : Order) (db' : DB),
        findOrder db oid = some o → o.status = OrderStatus.CA →
        mark_delivered db oid d = MarkDeliveredResult.ok db' →
        (findOrder db' oid).map Order.status = some OrderStatus.DE) := by
  refine ⟨?_, ?_, ?_⟩
  · intro db req d db' oid hstnone h
    obtain ⟨num, total, hnum, hoid, hfind, _, _⟩ := order_create_ok db req d db' oid h
    rw [hfind]
    simp only [Option.map_some']
    show some (req.status.getD OrderStatus.PE) = some OrderStatus.PE
    rw [hstnone]
    rfl
  · intro db oid st d o db' hfind _ h
    exact (add_status_event_spec db oid st d o db' hfind h).1
  · intro db oid d o db' _ _ h
    obtain ⟨o2, _, _, hst, _, _⟩ := mark_delivered_ok db oid d db' h
    exact hst

theorem order_lifecycle_amended_witness :
    (findOrder dbAIT 1).map Order.status = some OrderStatus.IT :=
  order_lifecycle_amended.2.1 dbA 1 OrderStatus.IT 0 ordA dbAIT (by decide)
    (Or.inl (by decide)) (by decide)

/-- C10: the `post_save` receiver returns immediately on a creating save —
an order inserted directly in Delivered status gets no invoice from its
insert — while a later non-creating save of the Delivered order (with no
invoice yet) does create one. -/
theorem creating_save_skips_invoice :
    (∀ (db : DB) (o : Order) (d : Int),
        handle_order_status_change db o true d = some db) ∧
    (∀ (db : DB) (o : Order) (d : Int) (db' : DB),
        o.status = OrderStatus.DE → invoicesFor db o.id = [] →
        handle_order_status_change db o false d = some db' →
        invoicesFor db' o.id ≠ []) := by
  constructor
  · intro db o d
    exact handler_skip_created db o d
  · intro db o d db' hst hemp h
    obtain ⟨num, hgen, hdb'⟩ := handler_creates db o d db' hst hemp h
    have hinv : db'.invoices = db.invoices ++ [autoInvoice db o num d] := by
      rw [hdb']
    have hfil : invoicesFor db' o.id = invoicesFor db o.id ++
        (if (autoInvoice db o num d).order = o.id
         then [autoInvoice db o num d] else []) :=
      invoicesFor_append db (autoInvoice db o num d) o.id db'.invoices hinv
    rw [hfil, hemp]
    have hcond : (autoInvoice db o num d).order = o.id := rfl
    rw [if_pos hcond]
    simp

theorem creating_save_skips_invoice_witness :
    invoicesFor dbB ordA.id ≠ [] :=
  creating_save_skips_invoice.2 dbA ordA 0 dbB (by decide) (by decide) dbA_handler_eq

end Fantasia
